import Mathlib

/- Shallow embedding of the disblox repository (src/cache_manager.py and
   src/bot_manager.py).  Time is modelled as an integer number of seconds,
   dictionaries as insertion-ordered association lists (Python dicts preserve
   insertion order and overwriting a key keeps its position), and every
   fallible platform mutation is driven by an explicit outcome oracle. -/

/- ===================== src/cache_manager.py ===================== -/

/-- Embedding of cache_manager.CacheItem: a stored value with its creation
time and time-to-live.  `time.time()` is modelled by an explicit `Int`
timestamp passed to each operation. -/
structure CacheItem (α : Type) where
  value : α
  created_at : Int
  ttl : Int
deriving DecidableEq

/-- Embedding of CacheItem.is_expired: `time.time() - self.created_at > self.ttl`. -/
def CacheItem.is_expired {α : Type} (now : Int) (it : CacheItem α) : Bool :=
  decide (now - it.created_at > it.ttl)

/-- The `_cache` dict of CacheManager: an insertion-ordered association list. -/
abbrev CState (α : Type) : Type := List (String × CacheItem α)

/-- Python `dict.get`: the item stored under a key, if any. -/
def CacheManager.lookup {α : Type} (s : CState α) (k : String) : Option (CacheItem α) :=
  (List.find? (fun p => p.1 == k) s).map (fun p => p.2)

/-- Python `del self._cache[key]`. -/
def CacheManager.erase_key {α : Type} (s : CState α) (k : String) : CState α :=
  List.filter (fun p => !(p.1 == k)) s

/-- Python `self._cache[key] = item`: overwrite in place when the key exists
(keeping its position, as Python dicts do), otherwise append. -/
def CacheManager.set_entry {α : Type} (s : CState α) (k : String) (it : CacheItem α) : CState α :=
  if s.any (fun p => p.1 == k) then
    s.map (fun p => if p.1 == k then (k, it) else p)
  else
    s ++ [(k, it)]

/-- Python `min(self._cache.keys(), key=lambda k: self._cache[k].created_at)`
together with the item it selects: the first entry (in iteration order)
whose `created_at` is minimal. -/
def CacheManager.oldest_entry {α : Type} : CState α → Option (String × CacheItem α)
  | [] => none
  | e :: rest =>
    match CacheManager.oldest_entry rest with
    | none => some e
    | some e2 => if e2.2.created_at < e.2.created_at then some e2 else some e

/-- Embedding of CacheManager._evict_if_needed.  On an empty dict with
`max_size = 0` the Python `min` raises ValueError, modelled by `none`. -/
def CacheManager.evict_if_needed {α : Type} (maxSize : Nat) (s : CState α) : Option (CState α) :=
  if s.length ≥ maxSize then
    match CacheManager.oldest_entry s with
    | some e => some (CacheManager.erase_key s e.1)
    | none => none
  else
    some s

/-- Embedding of CacheManager.set: evict if at capacity, then store the new
item with `created_at = now`. -/
def CacheManager.set {α : Type} (now : Int) (maxSize : Nat) (s : CState α)
    (k : String) (v : α) (ttl : Int) : Option (CState α) :=
  (CacheManager.evict_if_needed maxSize s).map
    (fun s1 => CacheManager.set_entry s1 k ⟨v, now, ttl⟩)

/-- Embedding of CacheManager.get: return the live value, delete an expired
entry, never touch `created_at`.  Returns the read result together with the
state after the call. -/
def CacheManager.get {α : Type} (now : Int) (s : CState α) (k : String) :
    Option α × CState α :=
  match CacheManager.lookup s k with
  | some it =>
    if it.is_expired now then (none, CacheManager.erase_key s k)
    else (some it.value, s)
  | none => (none, s)

/-- Embedding of DiscordCacheManager.check_rate_limit for one endpoint key:
prune timestamps older than `window`, refuse when at least `limit` remain,
otherwise record the current timestamp and allow.  Returns the decision and
the timestamp list stored back into `self.rate_limits`. -/
def DiscordCacheManager.check_rate_limit (now : Int) (limit : Nat) (window : Int)
    (reqs : List Int) : Bool × List Int :=
  let pruned := reqs.filter (fun t => decide (now - t < window))
  if pruned.length ≥ limit then (false, pruned)
  else (true, pruned ++ [now])

/-- Iterated calls to check_rate_limit, all at the same instant `now`
(the "quick succession" of the spec scenario). -/
def DiscordCacheManager.rl_iter (now : Int) (limit : Nat) (window : Int) :
    Nat → List Int → List Int
  | 0, s => s
  | k + 1, s =>
    (DiscordCacheManager.check_rate_limit now limit window
      (DiscordCacheManager.rl_iter now limit window k s)).2

/- ===================== src/bot_manager.py : data model ===================== -/

/-- A Discord role in the guild snapshot (discord.Role compares by id; in the
snapshot each id carries one name, so structural equality agrees). -/
structure Role where
  id : Nat
  name : String
deriving DecidableEq

/-- The guild snapshot: its role list, in position order (discord.utils.get
returns the first role whose name matches). -/
structure Guild where
  roles : List Role
deriving DecidableEq

/-- A guild member: current nickname, global display name, username, and
currently held roles (discord Member.display_name is nick or global name). -/
structure Member where
  nick : Option String
  global_name : String
  username : String
  roles : List Role
deriving DecidableEq

/-- Python `member.display_name`. -/
def Member.display_name (m : Member) : String :=
  m.nick.getD m.global_name

/-- Embedding of models.ServerConfig (the fields the engine reads).
`verified_role_id` and the comma-separated `roles_to_remove` are stored as
strings in the database and parsed with `int(...)` by the engine; they are
modelled already parsed.  `group_id` and `group_name` are nullable strings
whose Python truthiness (`None` and `""` are falsy) is tested explicitly. -/
structure ServerConfig where
  nickname_format : String
  verified_role_enabled : Bool
  verified_role_id : Option Nat
  roles_to_remove : List Nat
  group_id : Option String
  group_name : Option String
  group_roles_enabled : Bool
  setup_completed : Bool
deriving DecidableEq

/-- Embedding of models.GroupRole (the fields the engine reads):
one Roblox-rank-to-Discord-role mapping row; `discord_role_id` is nullable. -/
structure GroupRole where
  roblox_role_id : String
  discord_role_id : Option Nat
deriving DecidableEq

/-- Embedding of models.LinkedAccount (the fields the engine reads). -/
structure LinkedAccount where
  roblox_username : String
  verified : Bool
deriving DecidableEq

/-- One element of the Roblox group-membership response
`GET /v1/users/{id}/groups/roles`: the group id and the member role in it
(ids already passed through `str(...)` as the code does). -/
structure UserGroup where
  group_id : String
  role_id : String
  role_name : String
deriving DecidableEq

/-- The embed_data dict assembled by apply_server_config_sync_with_tracking:
the reconciliation diff returned to the caller. -/
structure RecResult where
  nickname_updated : Option String
  roles_added : List String
  roles_removed : List String
  group_roles_added : List String
  group_roles_removed : List String
deriving DecidableEq

/-- The embed_data dict of assign_group_roles_sync_with_tracking. -/
structure GroupEmbed where
  roles_added : List String
  roles_removed : List String
deriving DecidableEq

/-- The empty diff: the embed_data dict as initialised. -/
def RecResult.empty : RecResult := ⟨none, [], [], [], []⟩

/-- Outcome oracle for the fallible Discord mutations: each field tells
whether the corresponding `await` raises (False) or succeeds (True),
one flag per independent try site in the source. -/
structure MutOracle where
  editNickOk : Bool
  verifiedRemoveOk : Bool
  verifiedAddOk : Bool
  groupRemoveOk : Bool
  groupAddOk : Bool
  defaultRemoveOk : Bool
  defaultAddOk : Role → Bool

/-- The oracle under which every platform mutation succeeds. -/
def allOk : MutOracle := ⟨true, true, true, true, true, true, fun _ => true⟩

/-- The oracle under which every attempted platform mutation fails. -/
def allFail : MutOracle := ⟨false, false, false, false, false, false, fun _ => false⟩

/-- Python truthiness of a nullable string column. -/
def strTruthy : Option String → Bool
  | none => false
  | some s => s ≠ ""

/-- Python `member.guild.get_role(rid)`. -/
def get_role (g : Guild) (rid : Nat) : Option Role :=
  g.roles.find? (fun r => r.id == rid)

/-- Python `discord.utils.get(member.guild.roles, name=n)`. -/
def get_role_by_name (g : Guild) (n : String) : Option Role :=
  g.roles.find? (fun r => r.name == n)

/-- Python `member.add_roles(r)`: adding an already-held role is a no-op. -/
def add_role (roles : List Role) (r : Role) : List Role :=
  if r ∈ roles then roles else roles ++ [r]

/- ===================== src/bot_manager.py : engine ===================== -/

/-- Embedding of bot_manager lines 866-876: resolve every GroupRole mapping
with a non-null `discord_role_id` to a guild role (skipping ids that no
longer resolve). -/
def mapped_guild_roles (g : Guild) (grs : List GroupRole) : List Role :=
  grs.filterMap (fun gr => gr.discord_role_id.bind (get_role g))

/-- Embedding of bot_manager lines 878-882: the resolved mapped roles the
member currently holds. -/
def group_roles_to_remove (g : Guild) (grs : List GroupRole) (roles : List Role) : List Role :=
  (mapped_guild_roles g grs).filter (fun r => decide (r ∈ roles))

/-- Python `[server_config.group_name, "Newcomers", "Member"]`; a null
group_name is merged with the empty string, both being falsy at the
`if role_name:` test of the loop. -/
def default_role_names (cfg : ServerConfig) : List String :=
  [cfg.group_name.getD "", "Newcomers", "Member"]

/-- Embedding of the name loop of assign_default_group_role_sync_with_tracking
(bot_manager lines 1011-1021): skip falsy names and names that do not resolve
or are already held; try to add the first remaining candidate; on success stop
(`break`), on a raised add continue with the next name. -/
def default_add_loop (g : Guild) (addOk : Role → Bool) (roles : List Role) :
    List String → List Role
  | [] => roles
  | n :: rest =>
    if n = "" then default_add_loop g addOk roles rest
    else
      match get_role_by_name g n with
      | none => default_add_loop g addOk roles rest
      | some r =>
        if decide (r ∈ roles) then default_add_loop g addOk roles rest
        else if addOk r then roles ++ [r]
        else default_add_loop g addOk roles rest

/-- Embedding of assign_default_group_role_sync_with_tracking (bot_manager
lines 984-1023): strip the held mapped roles (a raised remove aborts the
whole function through its blanket except), then run the default-name loop.
The function returns only the new member role list: its effects are not
recorded in any embed_data. -/
def assign_default_group_role_sync_with_tracking (g : Guild) (grs : List GroupRole)
    (cfg : ServerConfig) (oracle : MutOracle) (roles : List Role) : List Role :=
  let toRemove := group_roles_to_remove g grs roles
  if toRemove.isEmpty then
    default_add_loop g oracle.defaultAddOk roles (default_role_names cfg)
  else if oracle.defaultRemoveOk then
    default_add_loop g oracle.defaultAddOk
      (roles.filter (fun r => !decide (r ∈ toRemove))) (default_role_names cfg)
  else roles

/-- Embedding of assign_group_roles_sync_with_tracking after the removal
phase (bot_manager lines 889-941), acting on the member roles left by the
removal and carrying the names already recorded as removed.  `lookup` is the
group-membership response: `none` models a non-200 status or a raised
request, both of which end the function with the current embed_data; a
mapping row whose `discord_role_id` is null makes `int(None)` raise, which
the blanket except turns into the same outcome. -/
def group_lookup_step (g : Guild) (grs : List GroupRole) (cfg : ServerConfig)
    (lookup : Option (List UserGroup)) (oracle : MutOracle)
    (roles1 : List Role) (removedNames : List String) : List Role × GroupEmbed :=
  if strTruthy cfg.group_id = false then (roles1, ⟨[], removedNames⟩)
  else
    match lookup with
    | none => (roles1, ⟨[], removedNames⟩)
    | some ugs =>
      match ugs.find? (fun ug => ug.group_id == cfg.group_id.getD "") with
      | none =>
        (assign_default_group_role_sync_with_tracking g grs cfg oracle roles1,
          ⟨[], removedNames⟩)
      | some ug =>
        match grs.find? (fun gr => gr.roblox_role_id == ug.role_id) with
        | none => (roles1, ⟨[], removedNames⟩)
        | some gr =>
          match gr.discord_role_id with
          | none => (roles1, ⟨[], removedNames⟩)
          | some rid =>
            match get_role g rid with
            | none => (roles1, ⟨[], removedNames⟩)
            | some r =>
              if oracle.groupAddOk then (add_role roles1 r, ⟨[r.name], removedNames⟩)
              else (roles1, ⟨[], removedNames⟩)

/-- Embedding of assign_group_roles_sync_with_tracking (bot_manager lines
842-947): strip every held mapped role first, recording the removal; a
raised remove is caught by the blanket except and returns the embed_data
still empty; then the lookup phase. -/
def assign_group_roles_sync_with_tracking (g : Guild) (grs : List GroupRole)
    (cfg : ServerConfig) (lookup : Option (List UserGroup)) (oracle : MutOracle)
    (roles : List Role) : List Role × GroupEmbed :=
  let toRemove := group_roles_to_remove g grs roles
  if toRemove.isEmpty then
    group_lookup_step g grs cfg lookup oracle roles []
  else if oracle.groupRemoveOk then
    group_lookup_step g grs cfg lookup oracle
      (roles.filter (fun r => !decide (r ∈ toRemove))) (toRemove.map Role.name)
  else (roles, ⟨[], []⟩)

/-- Embedding of get_formatted_nickname (bot_manager lines 671-695).
`profile` is the displayName of a successful Roblox profile lookup; `none`
models a non-200 status, a missing field or a raised request, all of which
fall back to the stored username. -/
def get_formatted_nickname (m : Member) (acct : LinkedAccount) (fmt : String)
    (profile : Option String) : Option String :=
  if fmt = "roblox_username" then some acct.roblox_username
  else if fmt = "roblox_display" then some (profile.getD acct.roblox_username)
  else if fmt = "discord_display" then some m.display_name
  else if fmt = "discord_username" then some m.username
  else if fmt = "discord_display_with_roblox" then
    some (m.display_name ++ " (@" ++ acct.roblox_username ++ ")")
  else if fmt = "none" then none
  else some acct.roblox_username

/-- Embedding of the nickname phase of apply_server_config_sync_with_tracking
(bot_manager lines 604-620): when the format is not "none" and the computed
nickname is truthy and differs from the current one, attempt the edit; a
raised edit leaves the nickname unchanged and unrecorded. -/
def nickname_step (cfg : ServerConfig) (acct : LinkedAccount)
    (profile : Option String) (oracle : MutOracle) (m : Member) :
    Member × Option String :=
  if cfg.nickname_format ≠ "none" then
    match get_formatted_nickname m acct cfg.nickname_format profile with
    | some nn =>
      if nn ≠ "" ∧ some nn ≠ m.nick then
        if oracle.editNickOk then ({ m with nick := some nn }, some nn)
        else (m, none)
      else (m, none)
    | none => (m, none)
  else (m, none)

/-- Embedding of bot_manager lines 629-635: the configured roles_to_remove
ids (behind the `if server_config.roles_to_remove:` truthiness test, empty
list being falsy), resolved against the guild and kept only when held. -/
def verified_roles_to_remove (g : Guild) (cfg : ServerConfig) (roles : List Role) :
    List Role :=
  if cfg.roles_to_remove.isEmpty then []
  else (cfg.roles_to_remove.filterMap (get_role g)).filter
    (fun r => decide (r ∈ roles))

/-- Embedding of the verified-role phase of apply_server_config_sync_with_tracking
(bot_manager lines 622-652), returning the new role list, the names recorded
as added and the names recorded as removed.  The whole phase sits in one try:
a raised remove aborts it with nothing recorded; a raised add leaves the
removal applied and recorded.  A role id that does not resolve is a silent
skip. -/
def verified_role_step (g : Guild) (cfg : ServerConfig) (oracle : MutOracle)
    (roles : List Role) : List Role × List String × List String :=
  if cfg.verified_role_enabled then
    match cfg.verified_role_id with
    | none => (roles, [], [])
    | some vid =>
      match get_role g vid with
      | none => (roles, [], [])
      | some vr =>
        if decide (vr ∈ roles) then (roles, [], [])
        else
          let rtr := verified_roles_to_remove g cfg roles
          if rtr.isEmpty then
            if oracle.verifiedAddOk then (add_role roles vr, [vr.name], [])
            else (roles, [], [])
          else if oracle.verifiedRemoveOk then
            let roles1 := roles.filter (fun r => !decide (r ∈ rtr))
            if oracle.verifiedAddOk then
              (add_role roles1 vr, [vr.name], rtr.map Role.name)
            else (roles1, [], rtr.map Role.name)
          else (roles, [], [])
  else (roles, [], [])

/-- Embedding of apply_server_config_sync_with_tracking (bot_manager lines
591-669): nickname phase, then verified-role phase, then group phase (only
when group_roles_enabled and group_id is truthy), assembling the embed_data
diff.  The notification DM and the logging are outside the state model. -/
def apply_server_config_sync_with_tracking (g : Guild) (cfg : ServerConfig)
    (grs : List GroupRole) (acct : LinkedAccount) (profile : Option String)
    (lookup : Option (List UserGroup)) (oracle : MutOracle) (m : Member) :
    Member × RecResult :=
  let p1 := nickname_step cfg acct profile oracle m
  let m1 := p1.1
  let p2 := verified_role_step g cfg oracle m1.roles
  let m2 := { m1 with roles := p2.1 }
  let p3 :=
    if cfg.group_roles_enabled ∧ strTruthy cfg.group_id then
      assign_group_roles_sync_with_tracking g grs cfg lookup oracle m2.roles
    else (m2.roles, ⟨[], []⟩)
  ({ m2 with roles := p3.1 },
    ⟨p1.2, p2.2.1, p2.2.2, p3.2.roles_added, p3.2.roles_removed⟩)

/-- Outcome of verify_user / update_user as surfaced to the caller. -/
inductive VerifyOutcome where
  | server_not_configured
  | no_linked_accounts
  | ok (result : RecResult)
deriving DecidableEq

/-- Embedding of verify_user (bot_manager lines 1122-1206): fail when the
guild has no ServerConfig row or setup is not completed; fail when the user
row is missing or has no linked accounts; otherwise reconcile with the first
verified linked account, falling back to the first account of the query
result (creation order).  `userExists` models whether the User row exists.
Returns the member state after the call together with the outcome. -/
def verify_user (g : Guild) (grs : List GroupRole) (profile : Option String)
    (lookup : Option (List UserGroup)) (oracle : MutOracle)
    (configOpt : Option ServerConfig) (userExists : Bool)
    (accounts : List LinkedAccount) (m : Member) : Member × VerifyOutcome :=
  match configOpt with
  | none => (m, .server_not_configured)
  | some cfg =>
    if cfg.setup_completed = false then (m, .server_not_configured)
    else if userExists = false then (m, .no_linked_accounts)
    else
      match accounts with
      | [] => (m, .no_linked_accounts)
      | a :: rest =>
        let acct := (List.find? (fun x => x.verified) (a :: rest)).getD a
        let p := apply_server_config_sync_with_tracking g cfg grs acct profile lookup oracle m
        (p.1, .ok p.2)

/-- Embedding of update_user (bot_manager lines 1208-1262): identical
precondition checks and reconciliation; only the messages and the is_update
flag of the notification differ, neither of which touches the state model. -/
def update_user (g : Guild) (grs : List GroupRole) (profile : Option String)
    (lookup : Option (List UserGroup)) (oracle : MutOracle)
    (configOpt : Option ServerConfig) (userExists : Bool)
    (accounts : List LinkedAccount) (m : Member) : Member × VerifyOutcome :=
  match configOpt with
  | none => (m, .server_not_configured)
  | some cfg =>
    if cfg.setup_completed = false then (m, .server_not_configured)
    else if userExists = false then (m, .no_linked_accounts)
    else
      match accounts with
      | [] => (m, .no_linked_accounts)
      | a :: rest =>
        let acct := (List.find? (fun x => x.verified) (a :: rest)).getD a
        let p := apply_server_config_sync_with_tracking g cfg grs acct profile lookup oracle m
        (p.1, .ok p.2)

/-- Characterization helper for the default-role fallback: the first name of
`names` that is truthy, resolves to a guild role, and is not already held.
Used to state what the loop of assign_default_group_role_sync_with_tracking
computes when every add succeeds. -/
def first_default_role (g : Guild) (roles : List Role) : List String → Option Role
  | [] => none
  | n :: rest =>
    if n = "" then first_default_role g roles rest
    else
      match get_role_by_name g n with
      | none => first_default_role g roles rest
      | some r =>
        if decide (r ∈ roles) then first_default_role g roles rest
        else some r

/- ===================== helper lemmas ===================== -/

theorem aux_oldest_entry_mem {α : Type} {s : CState α} {e : String × CacheItem α}
    (h : CacheManager.oldest_entry s = some e) : e ∈ s := by
  induction s with
  | nil => simp [CacheManager.oldest_entry] at h
  | cons x rest ih =>
    rw [CacheManager.oldest_entry] at h
    cases hrest : CacheManager.oldest_entry rest with
    | none => rw [hrest] at h; simp at h; simp [h]
    | some e2 =>
      rw [hrest] at h
      by_cases hlt : e2.2.created_at < x.2.created_at
      · simp [hlt] at h
        subst h
        exact List.mem_cons_of_mem x (ih hrest)
      · simp [hlt] at h
        simp [h]

theorem aux_erase_key_length_lt {α : Type} {s : CState α} {e : String × CacheItem α}
    (h : e ∈ s) : (CacheManager.erase_key s e.1).length < s.length := by
  unfold CacheManager.erase_key
  rw [List.length_filter_lt_length_iff_exists]
  exact ⟨e, h, by simp⟩

theorem aux_set_entry_length {α : Type} (s : CState α) (k : String) (it : CacheItem α) :
    (CacheManager.set_entry s k it).length ≤ s.length + 1 := by
  unfold CacheManager.set_entry
  by_cases hmem : s.any (fun p => p.1 == k)
  · rw [if_pos hmem, List.length_map]; omega
  · rw [if_neg hmem, List.length_append]; simp

theorem aux_rl_state (t0 : Int) (N : Nat) (W : Int) (hW : 0 < W) :
    ∀ k, k ≤ N →
      DiscordCacheManager.rl_iter t0 N W k [] = List.replicate k t0 := by
  intro k
  induction k with
  | zero => intro _; rfl
  | succ n ih =>
    intro hle
    have hn : n ≤ N := Nat.le_of_succ_le hle
    rw [DiscordCacheManager.rl_iter, ih hn]
    have hfil : (List.replicate n t0).filter (fun t => decide (t0 - t < W)) =
        List.replicate n t0 := by
      rw [List.filter_replicate]
      have hd : decide (t0 - t0 < W) = true := by simp; omega
      rw [hd]
      simp
    have hlen : ¬((List.replicate n t0).filter
        (fun t => decide (t0 - t < W))).length ≥ N := by
      rw [hfil, List.length_replicate]; omega
    simp only [DiscordCacheManager.check_rate_limit]
    rw [if_neg hlen, hfil]
    exact (List.replicate_succ' n t0).symm

/- ===================== claims C7, C8, C9 ===================== -/

/-- C7: for a key stored with time-to-live `ttl`, CacheManager.get returns
the stored value while `now - created_at ≤ ttl` and returns None, removing
the entry, once `now - created_at > ttl`, matching the CacheItem.is_expired
invariant; a get never rewrites any entry, so reads do not refresh
`created_at` no matter how many intervening gets occur. -/
theorem thm_C7 {α : Type} (now : Int) (s : CState α) (k : String)
    (it : CacheItem α) (h : CacheManager.lookup s k = some it) :
    (now - it.created_at ≤ it.ttl →
      CacheManager.get now s k = (some it.value, s)) ∧
    (now - it.created_at > it.ttl →
      CacheManager.get now s k = (none, CacheManager.erase_key s k)) ∧
    (it.is_expired now = true ↔ now - it.created_at > it.ttl) ∧
    ((CacheManager.get now s k).2 = s ∨
      (CacheManager.get now s k).2 = CacheManager.erase_key s k) := by
  refine ⟨?_, ?_, ?_, ?_⟩
  · intro hle
    have hexp : it.is_expired now = false := by
      simp [CacheItem.is_expired]; omega
    simp [CacheManager.get, h, hexp]
  · intro hgt
    have hexp : it.is_expired now = true := by
      simp [CacheItem.is_expired]; omega
    simp [CacheManager.get, h, hexp]
  · simp [CacheItem.is_expired]
  · cases hexp : it.is_expired now
    · left; simp [CacheManager.get, h, hexp]
    · right; simp [CacheManager.get, h, hexp]

/-- Witness for thm_C7 at a concrete entry: stored at time 0 with ttl 10,
read at time 5 (live) after establishing the lookup hypothesis. -/
theorem thm_C7_witness :
    CacheManager.lookup ([("k", (⟨7, 0, 10⟩ : CacheItem Nat))]) "k" =
      some ⟨7, 0, 10⟩ ∧
    CacheManager.get 5 ([("k", (⟨7, 0, 10⟩ : CacheItem Nat))]) "k" =
      (some 7, [("k", ⟨7, 0, 10⟩)]) :=
  ⟨by decide, (thm_C7 5 [("k", ⟨7, 0, 10⟩)] "k" ⟨7, 0, 10⟩ (by decide)).1 (by decide)⟩

/-- C8: check_rate_limit permits a call exactly when, after pruning
timestamps older than the window, fewer than the limit remain, and then
appends the current timestamp; from an empty history, N calls in quick
succession with limit N and window W all return true, the next call returns
false, and a call W seconds later returns true again. -/
theorem thm_C8 (t0 : Int) (N : Nat) (W : Int) (hN : 0 < N) (hW : 0 < W) :
    (∀ reqs, ((DiscordCacheManager.check_rate_limit t0 N W reqs).1 = true ↔
        (reqs.filter (fun t => decide (t0 - t < W))).length < N) ∧
      ((DiscordCacheManager.check_rate_limit t0 N W reqs).1 = true →
        (DiscordCacheManager.check_rate_limit t0 N W reqs).2 =
          reqs.filter (fun t => decide (t0 - t < W)) ++ [t0])) ∧
    (∀ k, k < N → (DiscordCacheManager.check_rate_limit t0 N W
        (DiscordCacheManager.rl_iter t0 N W k [])).1 = true) ∧
    (DiscordCacheManager.check_rate_limit t0 N W
        (DiscordCacheManager.rl_iter t0 N W N [])).1 = false ∧
    (DiscordCacheManager.check_rate_limit (t0 + W) N W
        (DiscordCacheManager.rl_iter t0 N W (N + 1) [])).1 = true := by
  have hstate := aux_rl_state t0 N W hW
  have hfil : ∀ n, (List.replicate n t0).filter (fun t => decide (t0 - t < W)) =
      List.replicate n t0 := by
    intro n
    rw [List.filter_replicate]
    have hd : decide (t0 - t0 < W) = true := by simp; omega
    rw [hd]; simp
  refine ⟨?_, ?_, ?_, ?_⟩
  · intro reqs
    constructor
    · simp only [DiscordCacheManager.check_rate_limit]
      constructor
      · intro htrue
        by_contra hge
        rw [if_pos (by omega)] at htrue
        simp at htrue
      · intro hlt
        rw [if_neg (by omega)]
    · intro htrue
      simp only [DiscordCacheManager.check_rate_limit] at htrue ⊢
      by_cases hge : (reqs.filter (fun t => decide (t0 - t < W))).length ≥ N
      · rw [if_pos hge] at htrue; simp at htrue
      · rw [if_neg hge]
  · intro k hk
    rw [hstate k (Nat.le_of_lt hk)]
    simp only [DiscordCacheManager.check_rate_limit]
    rw [hfil k]
    rw [if_neg (by rw [List.length_replicate]; omega)]
  · rw [hstate N (Nat.le_refl N)]
    simp only [DiscordCacheManager.check_rate_limit]
    rw [hfil N]
    rw [if_pos (by rw [List.length_replicate])]
  · have hiter : DiscordCacheManager.rl_iter t0 N W (N + 1) [] =
        List.replicate N t0 := by
      rw [DiscordCacheManager.rl_iter, hstate N (Nat.le_refl N)]
      simp only [DiscordCacheManager.check_rate_limit]
      rw [hfil N]
      rw [if_pos (by rw [List.length_replicate])]
    rw [hiter]
    simp only [DiscordCacheManager.check_rate_limit]
    have hfil2 : (List.replicate N t0).filter
        (fun t => decide (t0 + W - t < W)) = [] := by
      rw [List.filter_replicate]
      have hd : decide (t0 + W - t0 < W) = false := by simp
      rw [hd]; simp
    rw [hfil2]
    rw [if_neg (by simp; omega)]

/-- Witness for thm_C8 with limit 2, window 3, calls at time 0: the third
immediate call is refused and the call at time 3 is allowed again. -/
theorem thm_C8_witness :
    (DiscordCacheManager.check_rate_limit 0 2 3
      (DiscordCacheManager.rl_iter 0 2 3 0 [])).1 = true ∧
    (DiscordCacheManager.check_rate_limit 0 2 3
      (DiscordCacheManager.rl_iter 0 2 3 2 [])).1 = false ∧
    (DiscordCacheManager.check_rate_limit (0 + 3) 2 3
      (DiscordCacheManager.rl_iter 0 2 3 3 [])).1 = true :=
  ⟨(thm_C8 0 2 3 (by decide) (by decide)).2.1 0 (by decide),
   (thm_C8 0 2 3 (by decide) (by decide)).2.2.1,
   (thm_C8 0 2 3 (by decide) (by decide)).2.2.2⟩

/-- C9: when a set finds the cache at or above capacity, the entry whose
`created_at` is oldest is evicted before the new entry is stored, and a set
on a cache within capacity leaves the entry count at most max_size (for
max_size = 0 with an empty dict the Python min raises, so no state results). -/
theorem thm_C9 {α : Type} (now : Int) (maxSize : Nat) (s : CState α)
    (k : String) (v : α) (ttl : Int) :
    (∀ e, s.length ≥ maxSize → CacheManager.oldest_entry s = some e →
      CacheManager.evict_if_needed maxSize s =
        some (CacheManager.erase_key s e.1)) ∧
    (s.length ≤ maxSize → ∀ s2,
      CacheManager.set now maxSize s k v ttl = some s2 →
      s2.length ≤ maxSize) := by
  constructor
  · intro e hge he
    unfold CacheManager.evict_if_needed
    rw [if_pos hge, he]
  · intro hle s2 hset
    unfold CacheManager.set at hset
    cases hevict : CacheManager.evict_if_needed maxSize s with
    | none => rw [hevict] at hset; simp at hset
    | some s1 =>
      rw [hevict] at hset
      simp at hset
      have hs1 : s1.length + 1 ≤ maxSize ∨ (s1 = s ∧ s.length < maxSize) := by
        unfold CacheManager.evict_if_needed at hevict
        by_cases hge : s.length ≥ maxSize
        · rw [if_pos hge] at hevict
          cases hoe : CacheManager.oldest_entry s with
          | none => rw [hoe] at hevict; simp at hevict
          | some e =>
            rw [hoe] at hevict
            simp at hevict
            left
            have hmem := aux_oldest_entry_mem hoe
            have hlt := aux_erase_key_length_lt (s := s) hmem
            rw [← hevict]
            omega
        · rw [if_neg hge] at hevict
          simp at hevict
          right
          exact ⟨hevict.symm, by omega⟩
      have hlen := aux_set_entry_length s1 k (⟨v, now, ttl⟩ : CacheItem α)
      rw [← hset]
      rcases hs1 with h1 | ⟨h2, h3⟩
      · omega
      · have hlen2 : s1.length = s.length := by rw [h2]
        omega

/-- Witness for thm_C9: a one-entry cache with max_size 1; the set evicts
the old entry and the resulting state again has one entry. -/
theorem thm_C9_witness :
    ([(("a" : String), (⟨1, 0, 10⟩ : CacheItem Nat))].length ≤ 1) ∧
    CacheManager.set 5 1 [(("a" : String), (⟨1, 0, 10⟩ : CacheItem Nat))] "b" 9 10 =
      some [("b", ⟨9, 5, 10⟩)] ∧
    ([(("b" : String), (⟨9, 5, 10⟩ : CacheItem Nat))].length ≤ 1) :=
  ⟨by decide, by decide,
   (thm_C9 5 1 [("a", ⟨1, 0, 10⟩)] "b" 9 10).2 (by decide)
     [("b", ⟨9, 5, 10⟩)] (by decide)⟩

/- ===================== engine helper lemmas ===================== -/

theorem aux_add_role_mem_self (roles : List Role) (r : Role) :
    r ∈ add_role roles r := by
  unfold add_role
  by_cases h : r ∈ roles
  · rw [if_pos h]; exact h
  · rw [if_neg h]; simp

theorem aux_add_role_mem_pres {roles : List Role} {x : Role} (r : Role)
    (h : x ∈ roles) : x ∈ add_role roles r := by
  unfold add_role
  by_cases hr : r ∈ roles
  · rw [if_pos hr]; exact h
  · rw [if_neg hr]; exact List.mem_append_left _ h

theorem aux_dal_cons_empty (g : Guild) (ok : Role → Bool) (roles : List Role)
    (n : String) (rest : List String) (h0 : n = "") :
    default_add_loop g ok roles (n :: rest) = default_add_loop g ok roles rest := by
  rw [default_add_loop, if_pos h0]

theorem aux_dal_cons_none (g : Guild) (ok : Role → Bool) (roles : List Role)
    (n : String) (rest : List String) (h0 : ¬n = "")
    (hr : get_role_by_name g n = none) :
    default_add_loop g ok roles (n :: rest) = default_add_loop g ok roles rest := by
  rw [default_add_loop, if_neg h0, hr]

theorem aux_dal_cons_held (g : Guild) (ok : Role → Bool) (roles : List Role)
    (n : String) (rest : List String) (r : Role) (h0 : ¬n = "")
    (hr : get_role_by_name g n = some r) (hmem : r ∈ roles) :
    default_add_loop g ok roles (n :: rest) = default_add_loop g ok roles rest := by
  rw [default_add_loop, if_neg h0, hr]
  simp [hmem]

theorem aux_dal_cons_add (g : Guild) (ok : Role → Bool) (roles : List Role)
    (n : String) (rest : List String) (r : Role) (h0 : ¬n = "")
    (hr : get_role_by_name g n = some r) (hmem : r ∉ roles) (hok : ok r = true) :
    default_add_loop g ok roles (n :: rest) = roles ++ [r] := by
  rw [default_add_loop, if_neg h0, hr]
  simp [hmem, hok]

theorem aux_dal_cons_addfail (g : Guild) (ok : Role → Bool) (roles : List Role)
    (n : String) (rest : List String) (r : Role) (h0 : ¬n = "")
    (hr : get_role_by_name g n = some r) (hmem : r ∉ roles) (hok : ok r = false) :
    default_add_loop g ok roles (n :: rest) = default_add_loop g ok roles rest := by
  rw [default_add_loop, if_neg h0, hr]
  simp [hmem, hok]

theorem aux_fdr_cons_empty (g : Guild) (roles : List Role)
    (n : String) (rest : List String) (h0 : n = "") :
    first_default_role g roles (n :: rest) = first_default_role g roles rest := by
  rw [first_default_role, if_pos h0]

theorem aux_fdr_cons_none (g : Guild) (roles : List Role)
    (n : String) (rest : List String) (h0 : ¬n = "")
    (hr : get_role_by_name g n = none) :
    first_default_role g roles (n :: rest) = first_default_role g roles rest := by
  rw [first_default_role, if_neg h0, hr]

theorem aux_fdr_cons_held (g : Guild) (roles : List Role)
    (n : String) (rest : List String) (r : Role) (h0 : ¬n = "")
    (hr : get_role_by_name g n = some r) (hmem : r ∈ roles) :
    first_default_role g roles (n :: rest) = first_default_role g roles rest := by
  rw [first_default_role, if_neg h0, hr]
  simp [hmem]

theorem aux_fdr_cons_found (g : Guild) (roles : List Role)
    (n : String) (rest : List String) (r : Role) (h0 : ¬n = "")
    (hr : get_role_by_name g n = some r) (hmem : r ∉ roles) :
    first_default_role g roles (n :: rest) = some r := by
  rw [first_default_role, if_neg h0, hr]
  simp [hmem]

theorem aux_default_add_loop_shape (g : Guild) (ok : Role → Bool)
    (roles : List Role) (names : List String) :
    ∃ A, default_add_loop g ok roles names = roles ++ A ∧ A.length ≤ 1 := by
  induction names with
  | nil => exact ⟨[], by simp [default_add_loop]⟩
  | cons n rest ih =>
    obtain ⟨A, hA, hlen⟩ := ih
    by_cases h0 : n = ""
    · exact ⟨A, by rw [aux_dal_cons_empty g ok roles n rest h0, hA], hlen⟩
    · cases hr : get_role_by_name g n with
      | none => exact ⟨A, by rw [aux_dal_cons_none g ok roles n rest h0 hr, hA], hlen⟩
      | some r =>
        by_cases hmem : r ∈ roles
        · exact ⟨A, by rw [aux_dal_cons_held g ok roles n rest r h0 hr hmem, hA], hlen⟩
        · cases hok : ok r with
          | true =>
            exact ⟨[r], by rw [aux_dal_cons_add g ok roles n rest r h0 hr hmem hok], by simp⟩
          | false =>
            exact ⟨A, by rw [aux_dal_cons_addfail g ok roles n rest r h0 hr hmem hok, hA], hlen⟩

theorem aux_default_add_loop_allOk (g : Guild) (roles : List Role)
    (names : List String) :
    default_add_loop g (fun _ => true) roles names =
      (match first_default_role g roles names with
        | some r => roles ++ [r]
        | none => roles) := by
  induction names with
  | nil => simp [default_add_loop, first_default_role]
  | cons n rest ih =>
    by_cases h0 : n = ""
    · rw [aux_dal_cons_empty g _ roles n rest h0, aux_fdr_cons_empty g roles n rest h0, ih]
    · cases hr : get_role_by_name g n with
      | none =>
        rw [aux_dal_cons_none g _ roles n rest h0 hr, aux_fdr_cons_none g roles n rest h0 hr, ih]
      | some r =>
        by_cases hmem : r ∈ roles
        · rw [aux_dal_cons_held g _ roles n rest r h0 hr hmem,
            aux_fdr_cons_held g roles n rest r h0 hr hmem, ih]
        · rw [aux_dal_cons_add g _ roles n rest r h0 hr hmem rfl,
            aux_fdr_cons_found g roles n rest r h0 hr hmem]

theorem aux_default_add_loop_allFail (g : Guild) (roles : List Role)
    (names : List String) :
    default_add_loop g (fun _ => false) roles names = roles := by
  induction names with
  | nil => rfl
  | cons n rest ih =>
    by_cases h0 : n = ""
    · rw [aux_dal_cons_empty g _ roles n rest h0, ih]
    · cases hr : get_role_by_name g n with
      | none => rw [aux_dal_cons_none g _ roles n rest h0 hr, ih]
      | some r =>
        by_cases hmem : r ∈ roles
        · rw [aux_dal_cons_held g _ roles n rest r h0 hr hmem, ih]
        · rw [aux_dal_cons_addfail g _ roles n rest r h0 hr hmem rfl, ih]

theorem aux_mem_mapped {g : Guild} {grs : List GroupRole} {gr : GroupRole}
    {rid : Nat} {r : Role} (hgr : gr ∈ grs) (hid : gr.discord_role_id = some rid)
    (hr : get_role g rid = some r) : r ∈ mapped_guild_roles g grs := by
  unfold mapped_guild_roles
  rw [List.mem_filterMap]
  exact ⟨gr, hgr, by rw [hid]; simpa using hr⟩

theorem aux_not_mapped_of_toRemove_nil {g : Guild} {grs : List GroupRole}
    {roles : List Role} (h : group_roles_to_remove g grs roles = []) :
    ∀ r ∈ roles, r ∉ mapped_guild_roles g grs := by
  intro r hr hmem
  have h2 := List.filter_eq_nil_iff.mp h r hmem
  simp at h2
  exact h2 hr

theorem aux_toRemove_nil_of_not_mapped {g : Guild} {grs : List GroupRole}
    {roles1 : List Role} (h : ∀ r ∈ roles1, r ∉ mapped_guild_roles g grs) :
    group_roles_to_remove g grs roles1 = [] := by
  unfold group_roles_to_remove
  rw [List.filter_eq_nil_iff]
  intro a ha
  simp
  intro hcon
  exact h a hcon ha

theorem aux_filter_toRemove (g : Guild) (grs : List GroupRole) (roles : List Role) :
    roles.filter (fun r => !decide (r ∈ group_roles_to_remove g grs roles)) =
      roles.filter (fun r => !decide (r ∈ mapped_guild_roles g grs)) := by
  apply List.filter_congr
  intro r hr
  have hiff : r ∈ group_roles_to_remove g grs roles ↔ r ∈ mapped_guild_roles g grs := by
    unfold group_roles_to_remove
    rw [List.mem_filter]
    simp [hr]
  simp [hiff]

theorem aux_roles1_not_mapped (g : Guild) (grs : List GroupRole) (roles : List Role) :
    ∀ r ∈ roles.filter (fun r => !decide (r ∈ mapped_guild_roles g grs)),
      r ∉ mapped_guild_roles g grs := by
  intro r hr
  rw [List.mem_filter] at hr
  simpa using hr.2

theorem aux_group_phase (g : Guild) (grs : List GroupRole) (cfg : ServerConfig)
    (lookup : Option (List UserGroup)) (oracle : MutOracle) (roles : List Role)
    (hrm : oracle.groupRemoveOk = true) :
    assign_group_roles_sync_with_tracking g grs cfg lookup oracle roles =
      group_lookup_step g grs cfg lookup oracle
        (roles.filter (fun r => !decide (r ∈ mapped_guild_roles g grs)))
        ((group_roles_to_remove g grs roles).map Role.name) := by
  unfold assign_group_roles_sync_with_tracking
  by_cases hemp : (group_roles_to_remove g grs roles).isEmpty
  · rw [if_pos hemp]
    have hnil : group_roles_to_remove g grs roles = [] := List.isEmpty_iff.mp hemp
    have hfil : roles.filter (fun r => !decide (r ∈ mapped_guild_roles g grs)) = roles := by
      rw [List.filter_eq_self]
      intro r hr
      simpa using aux_not_mapped_of_toRemove_nil hnil r hr
    rw [hfil, hnil]
    simp
  · rw [if_neg hemp, hrm, if_pos rfl, aux_filter_toRemove]

theorem aux_gls_not_truthy (g : Guild) (grs : List GroupRole) (cfg : ServerConfig)
    (lookup : Option (List UserGroup)) (oracle : MutOracle)
    (roles1 : List Role) (rn : List String) (hts : strTruthy cfg.group_id = false) :
    group_lookup_step g grs cfg lookup oracle roles1 rn = (roles1, ⟨[], rn⟩) := by
  simp [group_lookup_step, hts]

theorem aux_gls_lookup_none (g : Guild) (grs : List GroupRole) (cfg : ServerConfig)
    (oracle : MutOracle) (roles1 : List Role) (rn : List String)
    (hts : strTruthy cfg.group_id = true) :
    group_lookup_step g grs cfg none oracle roles1 rn = (roles1, ⟨[], rn⟩) := by
  simp [group_lookup_step, hts]

theorem aux_gls_no_target (g : Guild) (grs : List GroupRole) (cfg : ServerConfig)
    (oracle : MutOracle) (roles1 : List Role) (rn : List String)
    (ugs : List UserGroup) (hts : strTruthy cfg.group_id = true)
    (hug : ugs.find? (fun ug => ug.group_id == cfg.group_id.getD "") = none) :
    group_lookup_step g grs cfg (some ugs) oracle roles1 rn =
      (assign_default_group_role_sync_with_tracking g grs cfg oracle roles1,
        ⟨[], rn⟩) := by
  simp [group_lookup_step, hts, hug]

theorem aux_gls_no_mapping (g : Guild) (grs : List GroupRole) (cfg : ServerConfig)
    (oracle : MutOracle) (roles1 : List Role) (rn : List String)
    (ugs : List UserGroup) (ug : UserGroup) (hts : strTruthy cfg.group_id = true)
    (hug : ugs.find? (fun x => x.group_id == cfg.group_id.getD "") = some ug)
    (hgr : grs.find? (fun x => x.roblox_role_id == ug.role_id) = none) :
    group_lookup_step g grs cfg (some ugs) oracle roles1 rn = (roles1, ⟨[], rn⟩) := by
  simp [group_lookup_step, hts, hug, hgr]

theorem aux_gls_mapping_null (g : Guild) (grs : List GroupRole) (cfg : ServerConfig)
    (oracle : MutOracle) (roles1 : List Role) (rn : List String)
    (ugs : List UserGroup) (ug : UserGroup) (gr : GroupRole)
    (hts : strTruthy cfg.group_id = true)
    (hug : ugs.find? (fun x => x.group_id == cfg.group_id.getD "") = some ug)
    (hgr : grs.find? (fun x => x.roblox_role_id == ug.role_id) = some gr)
    (hid : gr.discord_role_id = none) :
    group_lookup_step g grs cfg (some ugs) oracle roles1 rn = (roles1, ⟨[], rn⟩) := by
  simp [group_lookup_step, hts, hug, hgr, hid]

theorem aux_gls_role_gone (g : Guild) (grs : List GroupRole) (cfg : ServerConfig)
    (oracle : MutOracle) (roles1 : List Role) (rn : List String)
    (ugs : List UserGroup) (ug : UserGroup) (gr : GroupRole) (rid : Nat)
    (hts : strTruthy cfg.group_id = true)
    (hug : ugs.find? (fun x => x.group_id == cfg.group_id.getD "") = some ug)
    (hgr : grs.find? (fun x => x.roblox_role_id == ug.role_id) = some gr)
    (hid : gr.discord_role_id = some rid) (hrole : get_role g rid = none) :
    group_lookup_step g grs cfg (some ugs) oracle roles1 rn = (roles1, ⟨[], rn⟩) := by
  simp [group_lookup_step, hts, hug, hgr, hid, hrole]

theorem aux_gls_add (g : Guild) (grs : List GroupRole) (cfg : ServerConfig)
    (oracle : MutOracle) (roles1 : List Role) (rn : List String)
    (ugs : List UserGroup) (ug : UserGroup) (gr : GroupRole) (rid : Nat) (r : Role)
    (hts : strTruthy cfg.group_id = true)
    (hug : ugs.find? (fun x => x.group_id == cfg.group_id.getD "") = some ug)
    (hgr : grs.find? (fun x => x.roblox_role_id == ug.role_id) = some gr)
    (hid : gr.discord_role_id = some rid) (hrole : get_role g rid = some r)
    (hok : oracle.groupAddOk = true) :
    group_lookup_step g grs cfg (some ugs) oracle roles1 rn =
      (add_role roles1 r, ⟨[r.name], rn⟩) := by
  simp [group_lookup_step, hts, hug, hgr, hid, hrole, hok]

theorem aux_gls_addfail (g : Guild) (grs : List GroupRole) (cfg : ServerConfig)
    (oracle : MutOracle) (roles1 : List Role) (rn : List String)
    (ugs : List UserGroup) (ug : UserGroup) (gr : GroupRole) (rid : Nat) (r : Role)
    (hts : strTruthy cfg.group_id = true)
    (hug : ugs.find? (fun x => x.group_id == cfg.group_id.getD "") = some ug)
    (hgr : grs.find? (fun x => x.roblox_role_id == ug.role_id) = some gr)
    (hid : gr.discord_role_id = some rid) (hrole : get_role g rid = some r)
    (hok : oracle.groupAddOk = false) :
    group_lookup_step g grs cfg (some ugs) oracle roles1 rn = (roles1, ⟨[], rn⟩) := by
  simp [group_lookup_step, hts, hug, hgr, hid, hrole, hok]

theorem aux_add_role_shape (roles : List Role) (r : Role) :
    ∃ A, add_role roles r = roles ++ A ∧ A.length ≤ 1 := by
  by_cases h : r ∈ roles
  · exact ⟨[], by rw [add_role, if_pos h]; simp, by simp⟩
  · exact ⟨[r], by rw [add_role, if_neg h], by simp⟩

theorem aux_default_shape (g : Guild) (grs : List GroupRole) (cfg : ServerConfig)
    (oracle : MutOracle) (roles1 : List Role)
    (h : ∀ r ∈ roles1, r ∉ mapped_guild_roles g grs) :
    ∃ A, assign_default_group_role_sync_with_tracking g grs cfg oracle roles1 =
      roles1 ++ A ∧ A.length ≤ 1 := by
  have hnil := aux_toRemove_nil_of_not_mapped h
  have heq : assign_default_group_role_sync_with_tracking g grs cfg oracle roles1 =
      default_add_loop g oracle.defaultAddOk roles1 (default_role_names cfg) := by
    unfold assign_default_group_role_sync_with_tracking
    rw [hnil]
    simp
  rw [heq]
  exact aux_default_add_loop_shape g oracle.defaultAddOk roles1 (default_role_names cfg)

theorem aux_gls_shape (g : Guild) (grs : List GroupRole) (cfg : ServerConfig)
    (lookup : Option (List UserGroup)) (oracle : MutOracle)
    (roles1 : List Role) (rn : List String)
    (h : ∀ r ∈ roles1, r ∉ mapped_guild_roles g grs) :
    ∃ A, (group_lookup_step g grs cfg lookup oracle roles1 rn).1 = roles1 ++ A ∧
      A.length ≤ 1 := by
  cases hts : strTruthy cfg.group_id with
  | false =>
    exact ⟨[], by rw [aux_gls_not_truthy g grs cfg lookup oracle roles1 rn hts]; simp, by simp⟩
  | true =>
    cases lookup with
    | none =>
      exact ⟨[], by rw [aux_gls_lookup_none g grs cfg oracle roles1 rn hts]; simp, by simp⟩
    | some ugs =>
      cases hug : ugs.find? (fun x => x.group_id == cfg.group_id.getD "") with
      | none =>
        obtain ⟨A, hA, hlen⟩ := aux_default_shape g grs cfg oracle roles1 h
        exact ⟨A, by rw [aux_gls_no_target g grs cfg oracle roles1 rn ugs hts hug]; exact hA, hlen⟩
      | some ug =>
        cases hgr : grs.find? (fun x => x.roblox_role_id == ug.role_id) with
        | none =>
          exact ⟨[], by
            rw [aux_gls_no_mapping g grs cfg oracle roles1 rn ugs ug hts hug hgr]; simp, by simp⟩
        | some gr =>
          cases hid : gr.discord_role_id with
          | none =>
            exact ⟨[], by
              rw [aux_gls_mapping_null g grs cfg oracle roles1 rn ugs ug gr hts hug hgr hid]
              simp, by simp⟩
          | some rid =>
            cases hrole : get_role g rid with
            | none =>
              exact ⟨[], by
                rw [aux_gls_role_gone g grs cfg oracle roles1 rn ugs ug gr rid hts hug hgr hid hrole]
                simp, by simp⟩
            | some r =>
              cases hok : oracle.groupAddOk with
              | false =>
                exact ⟨[], by
                  rw [aux_gls_addfail g grs cfg oracle roles1 rn ugs ug gr rid r hts hug hgr hid hrole hok]
                  simp, by simp⟩
              | true =>
                obtain ⟨A, hA, hlen⟩ := aux_add_role_shape roles1 r
                exact ⟨A, by
                  rw [aux_gls_add g grs cfg oracle roles1 rn ugs ug gr rid r hts hug hgr hid hrole hok]
                  exact hA, hlen⟩

theorem aux_group_step_shape (g : Guild) (grs : List GroupRole) (cfg : ServerConfig)
    (lookup : Option (List UserGroup)) (oracle : MutOracle) (roles : List Role)
    (hrm : oracle.groupRemoveOk = true) :
    ∃ A, (assign_group_roles_sync_with_tracking g grs cfg lookup oracle roles).1 =
      roles.filter (fun r => !decide (r ∈ mapped_guild_roles g grs)) ++ A ∧
      A.length ≤ 1 := by
  rw [aux_group_phase g grs cfg lookup oracle roles hrm]
  exact aux_gls_shape g grs cfg lookup oracle _ _ (aux_roles1_not_mapped g grs roles)

theorem aux_group_step_preserves (g : Guild) (grs : List GroupRole) (cfg : ServerConfig)
    (lookup : Option (List UserGroup)) (oracle : MutOracle) (roles : List Role)
    (r : Role) (hrm : oracle.groupRemoveOk = true) (hr : r ∈ roles)
    (hnm : r ∉ mapped_guild_roles g grs) :
    r ∈ (assign_group_roles_sync_with_tracking g grs cfg lookup oracle roles).1 := by
  obtain ⟨A, hA, _⟩ := aux_group_step_shape g grs cfg lookup oracle roles hrm
  rw [hA]
  apply List.mem_append_left
  rw [List.mem_filter]
  exact ⟨hr, by simpa using hnm⟩

theorem aux_vrs_disabled (g : Guild) (cfg : ServerConfig) (oracle : MutOracle)
    (roles : List Role) (he : cfg.verified_role_enabled = false) :
    verified_role_step g cfg oracle roles = (roles, [], []) := by
  simp [verified_role_step, he]

theorem aux_vrs_no_id (g : Guild) (cfg : ServerConfig) (oracle : MutOracle)
    (roles : List Role) (hid : cfg.verified_role_id = none) :
    verified_role_step g cfg oracle roles = (roles, [], []) := by
  simp [verified_role_step, hid]

theorem aux_vrs_role_gone (g : Guild) (cfg : ServerConfig) (oracle : MutOracle)
    (roles : List Role) (vid : Nat) (hid : cfg.verified_role_id = some vid)
    (hvr : get_role g vid = none) :
    verified_role_step g cfg oracle roles = (roles, [], []) := by
  simp [verified_role_step, hid, hvr]

theorem aux_vrs_held (g : Guild) (cfg : ServerConfig) (oracle : MutOracle)
    (roles : List Role) (vid : Nat) (vr : Role)
    (hid : cfg.verified_role_id = some vid) (hvr : get_role g vid = some vr)
    (hmem : vr ∈ roles) :
    verified_role_step g cfg oracle roles = (roles, [], []) := by
  simp [verified_role_step, hid, hvr, hmem]

theorem aux_vrs_apply (g : Guild) (cfg : ServerConfig) (roles : List Role)
    (vid : Nat) (vr : Role) (he : cfg.verified_role_enabled = true)
    (hid : cfg.verified_role_id = some vid) (hvr : get_role g vid = some vr)
    (hne : vr ∉ roles) :
    verified_role_step g cfg allOk roles =
      (roles.filter (fun r => !decide (r ∈ verified_roles_to_remove g cfg roles)) ++ [vr],
        [vr.name], (verified_roles_to_remove g cfg roles).map Role.name) := by
  by_cases hemp : (verified_roles_to_remove g cfg roles).isEmpty
  · have hnil : verified_roles_to_remove g cfg roles = [] := List.isEmpty_iff.mp hemp
    have hfil : roles.filter
        (fun r => !decide (r ∈ verified_roles_to_remove g cfg roles)) = roles := by
      rw [List.filter_eq_self]
      intro r _
      simp [hnil]
    have hadd : add_role roles vr = roles ++ [vr] := by rw [add_role, if_neg hne]
    simp [verified_role_step, he, hid, hvr, hne, hnil, hfil, hadd, allOk]
  · have hne1 : vr ∉ roles.filter
        (fun r => !decide (r ∈ verified_roles_to_remove g cfg roles)) := by
      intro hcon
      exact hne (List.mem_filter.mp hcon).1
    have hadd : add_role (roles.filter
        (fun r => !decide (r ∈ verified_roles_to_remove g cfg roles))) vr =
        roles.filter (fun r => !decide (r ∈ verified_roles_to_remove g cfg roles)) ++ [vr] := by
      rw [add_role, if_neg hne1]
    simp [verified_role_step, he, hid, hvr, hne, hemp, hadd, allOk]

theorem aux_vrs_mem (g : Guild) (cfg : ServerConfig) (roles : List Role)
    (vid : Nat) (vr : Role) (he : cfg.verified_role_enabled = true)
    (hid : cfg.verified_role_id = some vid) (hvr : get_role g vid = some vr) :
    vr ∈ (verified_role_step g cfg allOk roles).1 := by
  by_cases hmem : vr ∈ roles
  · rw [aux_vrs_held g cfg allOk roles vid vr hid hvr hmem]
    exact hmem
  · rw [aux_vrs_apply g cfg roles vid vr he hid hvr hmem]
    simp

theorem aux_gfn_roles_indep (m : Member) (acct : LinkedAccount) (fmt : String)
    (profile : Option String) (R2 : List Role) :
    get_formatted_nickname { m with roles := R2 } acct fmt profile =
      get_formatted_nickname m acct fmt profile := rfl

theorem aux_gfn_some (m : Member) (acct : LinkedAccount) (fmt : String)
    (profile : Option String) (hfmt : fmt ≠ "none") :
    ∃ nn, get_formatted_nickname m acct fmt profile = some nn := by
  unfold get_formatted_nickname
  split_ifs <;> exact ⟨_, rfl⟩

theorem aux_gfn_nick_set (m : Member) (acct : LinkedAccount) (fmt : String)
    (profile : Option String) (nn : String) (R2 : List Role)
    (hfmt : fmt ≠ "discord_display_with_roblox")
    (hg : get_formatted_nickname m acct fmt profile = some nn) :
    get_formatted_nickname { m with nick := some nn, roles := R2 } acct fmt profile =
      some nn := by
  unfold get_formatted_nickname at hg ⊢
  split_ifs at hg ⊢ <;>
    simp_all [Member.display_name]

theorem aux_nickname_second (cfg : ServerConfig) (acct : LinkedAccount)
    (profile : Option String) (m : Member) (R2 : List Role)
    (hfmt : cfg.nickname_format ≠ "discord_display_with_roblox") :
    nickname_step cfg acct profile allOk
      { (nickname_step cfg acct profile allOk m).1 with roles := R2 } =
    ({ (nickname_step cfg acct profile allOk m).1 with roles := R2 }, none) := by
  by_cases hn : cfg.nickname_format = "none"
  · simp [nickname_step, hn]
  · obtain ⟨nn, hg⟩ := aux_gfn_some m acct cfg.nickname_format profile hn
    by_cases hc : nn ≠ "" ∧ some nn ≠ m.nick
    · have h1 : nickname_step cfg acct profile allOk m =
          ({ m with nick := some nn }, some nn) := by
        simp [nickname_step, hn, hg, hc, allOk]
      rw [h1]
      have hg2 : get_formatted_nickname
          { m with nick := some nn, roles := R2 } acct cfg.nickname_format profile =
          some nn := aux_gfn_nick_set m acct cfg.nickname_format profile nn R2 hfmt hg
      simp [nickname_step, hn, hg2]
    · have h1 : nickname_step cfg acct profile allOk m = (m, none) := by
        simp [nickname_step, hn, hg, hc]
      rw [h1]
      have hg2 : get_formatted_nickname { m with roles := R2 } acct
          cfg.nickname_format profile = some nn := by
        rw [aux_gfn_roles_indep]; exact hg
      have hc2 : ¬(nn ≠ "" ∧ some nn ≠ ({ m with roles := R2 } : Member).nick) := by
        simpa using hc
      simp [nickname_step, hn, hg2, hc2]

theorem aux_nickname_allFail (cfg : ServerConfig) (acct : LinkedAccount)
    (profile : Option String) (m : Member) :
    nickname_step cfg acct profile allFail m = (m, none) := by
  by_cases hn : cfg.nickname_format = "none"
  · simp [nickname_step, hn]
  · cases hg : get_formatted_nickname m acct cfg.nickname_format profile with
    | none => simp [nickname_step, hn, hg]
    | some nn =>
      by_cases hc : nn ≠ "" ∧ some nn ≠ m.nick
      · simp [nickname_step, hn, hg, hc, allFail]
      · simp [nickname_step, hn, hg, hc]

theorem aux_vrs_allFail (g : Guild) (cfg : ServerConfig) (roles : List Role) :
    verified_role_step g cfg allFail roles = (roles, [], []) := by
  cases he : cfg.verified_role_enabled with
  | false => exact aux_vrs_disabled g cfg allFail roles he
  | true =>
    cases hid : cfg.verified_role_id with
    | none => exact aux_vrs_no_id g cfg allFail roles hid
    | some vid =>
      cases hvr : get_role g vid with
      | none => exact aux_vrs_role_gone g cfg allFail roles vid hid hvr
      | some vr =>
        by_cases hmem : vr ∈ roles
        · exact aux_vrs_held g cfg allFail roles vid vr hid hvr hmem
        · by_cases hemp : (verified_roles_to_remove g cfg roles).isEmpty
          · simp [verified_role_step, he, hid, hvr, hmem, hemp, allFail]
          · simp [verified_role_step, he, hid, hvr, hmem, hemp, allFail]

theorem aux_gls_allFail (g : Guild) (grs : List GroupRole) (cfg : ServerConfig)
    (lookup : Option (List UserGroup)) (roles1 : List Role)
    (h : ∀ r ∈ roles1, r ∉ mapped_guild_roles g grs) :
    group_lookup_step g grs cfg lookup allFail roles1 [] = (roles1, ⟨[], []⟩) := by
  cases hts : strTruthy cfg.group_id with
  | false => exact aux_gls_not_truthy g grs cfg lookup allFail roles1 [] hts
  | true =>
    cases lookup with
    | none => exact aux_gls_lookup_none g grs cfg allFail roles1 [] hts
    | some ugs =>
      cases hug : ugs.find? (fun x => x.group_id == cfg.group_id.getD "") with
      | none =>
        have hdef : assign_default_group_role_sync_with_tracking g grs cfg allFail roles1 =
            roles1 := by
          unfold assign_default_group_role_sync_with_tracking
          rw [aux_toRemove_nil_of_not_mapped h]
          simp only [List.isEmpty_nil, if_true]
          exact aux_default_add_loop_allFail g roles1 (default_role_names cfg)
        rw [aux_gls_no_target g grs cfg allFail roles1 [] ugs hts hug, hdef]
      | some ug =>
        cases hgr : grs.find? (fun x => x.roblox_role_id == ug.role_id) with
        | none => exact aux_gls_no_mapping g grs cfg allFail roles1 [] ugs ug hts hug hgr
        | some gr =>
          cases hid : gr.discord_role_id with
          | none => exact aux_gls_mapping_null g grs cfg allFail roles1 [] ugs ug gr hts hug hgr hid
          | some rid =>
            cases hrole : get_role g rid with
            | none =>
              exact aux_gls_role_gone g grs cfg allFail roles1 [] ugs ug gr rid hts hug hgr hid hrole
            | some r =>
              exact aux_gls_addfail g grs cfg allFail roles1 [] ugs ug gr rid r hts hug hgr hid hrole rfl

theorem aux_group_allFail (g : Guild) (grs : List GroupRole) (cfg : ServerConfig)
    (lookup : Option (List UserGroup)) (roles : List Role) :
    assign_group_roles_sync_with_tracking g grs cfg lookup allFail roles =
      (roles, ⟨[], []⟩) := by
  unfold assign_group_roles_sync_with_tracking
  by_cases hemp : (group_roles_to_remove g grs roles).isEmpty
  · rw [if_pos hemp]
    exact aux_gls_allFail g grs cfg lookup roles
      (aux_not_mapped_of_toRemove_nil (List.isEmpty_iff.mp hemp))
  · rw [if_neg hemp]
    simp [allFail]

theorem aux_apply_allFail (g : Guild) (cfg : ServerConfig) (grs : List GroupRole)
    (acct : LinkedAccount) (profile : Option String)
    (lookup : Option (List UserGroup)) (m : Member) :
    apply_server_config_sync_with_tracking g cfg grs acct profile lookup allFail m =
      (m, RecResult.empty) := by
  simp only [apply_server_config_sync_with_tracking, aux_nickname_allFail,
    aux_vrs_allFail, aux_group_allFail]
  split_ifs <;> rfl

/- ===================== claims C2 - C6, C10 ===================== -/

/-- C2: after a group-role reconciliation whose removal phase completes
(group remove not raised), the member holds at most one role from the full
mapped-role set of the config: every held mapped role is stripped first and
at most one role is added afterwards. -/
theorem thm_C2 (g : Guild) (grs : List GroupRole) (cfg : ServerConfig)
    (lookup : Option (List UserGroup)) (oracle : MutOracle) (roles : List Role)
    (hrm : oracle.groupRemoveOk = true) :
    (((assign_group_roles_sync_with_tracking g grs cfg lookup oracle roles).1).filter
      (fun r => decide (r ∈ mapped_guild_roles g grs))).length ≤ 1 := by
  obtain ⟨A, hA, hlen⟩ := aux_group_step_shape g grs cfg lookup oracle roles hrm
  rw [hA, List.filter_append]
  have h1 : (roles.filter (fun r => !decide (r ∈ mapped_guild_roles g grs))).filter
      (fun r => decide (r ∈ mapped_guild_roles g grs)) = [] := by
    rw [List.filter_eq_nil_iff]
    intro a ha
    simpa using aux_roles1_not_mapped g grs roles a ha
  rw [h1]
  simp only [List.nil_append]
  exact le_trans (List.length_filter_le _ _) hlen

/-- Witness for thm_C2: a member holding both mapped roles ends the group
reconciliation (all mutations succeeding, lookup failed) with none of them. -/
theorem thm_C2_witness :
    allOk.groupRemoveOk = true ∧
    (((assign_group_roles_sync_with_tracking ⟨[⟨1, "A"⟩, ⟨2, "B"⟩]⟩
        [⟨"10", some 1⟩, ⟨"11", some 2⟩]
        ⟨"none", false, none, [], some "100", some "G", true, true⟩
        none allOk [⟨1, "A"⟩, ⟨2, "B"⟩]).1).filter
      (fun r => decide (r ∈ mapped_guild_roles ⟨[⟨1, "A"⟩, ⟨2, "B"⟩]⟩
        [⟨"10", some 1⟩, ⟨"11", some 2⟩]))).length ≤ 1 :=
  ⟨rfl, thm_C2 ⟨[⟨1, "A"⟩, ⟨2, "B"⟩]⟩ [⟨"10", some 1⟩, ⟨"11", some 2⟩]
    ⟨"none", false, none, [], some "100", some "G", true, true⟩
    none allOk [⟨1, "A"⟩, ⟨2, "B"⟩] rfl⟩

/-- C3 counterexample: with the group lookup failing (none), a member who
held a mapped role gets a result whose group_roles_removed is not empty —
the strip happens and is recorded before the lookup — refuting the claim
that both group lists are empty. -/
theorem thm_C3_counterexample :
    ¬((apply_server_config_sync_with_tracking ⟨[⟨5, "Elite"⟩]⟩
        ⟨"none", false, none, [], some "100", some "G", true, true⟩
        [⟨"10", some 5⟩] ⟨"u", true⟩ none none allOk
        ⟨none, "A", "a", [⟨5, "Elite"⟩]⟩).2.group_roles_added = [] ∧
      (apply_server_config_sync_with_tracking ⟨[⟨5, "Elite"⟩]⟩
        ⟨"none", false, none, [], some "100", some "G", true, true⟩
        [⟨"10", some 5⟩] ⟨"u", true⟩ none none allOk
        ⟨none, "A", "a", [⟨5, "Elite"⟩]⟩).2.group_roles_removed = []) := by
  decide

/-- C3 amended: when the group lookup fails or times out, the group
reconciliation still completes and returns (the exception is absorbed), its
roles_added is empty, and its roles_removed lists exactly the mapped roles
the member held at entry, which were stripped before the lookup (empty only
when the member held none). -/
theorem thm_C3_amended (g : Guild) (grs : List GroupRole) (cfg : ServerConfig)
    (oracle : MutOracle) (roles : List Role) (hrm : oracle.groupRemoveOk = true) :
    (assign_group_roles_sync_with_tracking g grs cfg none oracle roles).2 =
      ⟨[], (group_roles_to_remove g grs roles).map Role.name⟩ ∧
    (assign_group_roles_sync_with_tracking g grs cfg none oracle roles).1 =
      roles.filter (fun r => !decide (r ∈ mapped_guild_roles g grs)) := by
  rw [aux_group_phase g grs cfg none oracle roles hrm]
  cases hts : strTruthy cfg.group_id with
  | false =>
    rw [aux_gls_not_truthy g grs cfg none oracle _ _ hts]
    exact ⟨rfl, rfl⟩
  | true =>
    rw [aux_gls_lookup_none g grs cfg oracle _ _ hts]
    exact ⟨rfl, rfl⟩

/-- Witness for thm_C3_amended at the counterexample instance: the failed
lookup leaves roles_added empty while roles_removed records the stripped
mapped role. -/
theorem thm_C3_amended_witness :
    (assign_group_roles_sync_with_tracking ⟨[⟨5, "Elite"⟩]⟩ [⟨"10", some 5⟩]
      ⟨"none", false, none, [], some "100", some "G", true, true⟩
      none allOk [⟨5, "Elite"⟩]).2 = ⟨[], ["Elite"]⟩ :=
  (thm_C3_amended ⟨[⟨5, "Elite"⟩]⟩ [⟨"10", some 5⟩]
    ⟨"none", false, none, [], some "100", some "G", true, true⟩
    allOk [⟨5, "Elite"⟩] rfl).1.trans (by decide)

/-- C4 counterexample: a member not in the target group who already holds
the role named "Member" also gets "Newcomers" added (the first default name
found that is not held), ending with two of the default roles — refuting
"exactly one of these default roles". -/
theorem thm_C4_counterexample :
    (((assign_group_roles_sync_with_tracking ⟨[⟨1, "Newcomers"⟩, ⟨2, "Member"⟩]⟩
        [] ⟨"none", false, none, [], some "100", some "MyGroup", true, true⟩
        (some []) allOk [⟨2, "Member"⟩]).1).filter
      (fun r => decide (r.name ∈ default_role_names
        ⟨"none", false, none, [], some "100", some "MyGroup", true, true⟩))).length = 2 := by
  decide

/-- C4 amended: the default-role fallback strips every held mapped role,
then adds the first default name (group name, "Newcomers", "Member") that is
truthy, resolves in the guild, and is not already held, and stops; the final
role set is exactly the stripped set plus that single role when one exists
(default names already held are kept and are not counted or replaced). -/
theorem thm_C4_amended (g : Guild) (grs : List GroupRole) (cfg : ServerConfig)
    (roles : List Role) :
    assign_default_group_role_sync_with_tracking g grs cfg allOk roles =
      (match first_default_role g
          (roles.filter (fun r => !decide (r ∈ mapped_guild_roles g grs)))
          (default_role_names cfg) with
        | some r =>
          roles.filter (fun r => !decide (r ∈ mapped_guild_roles g grs)) ++ [r]
        | none => roles.filter (fun r => !decide (r ∈ mapped_guild_roles g grs))) := by
  unfold assign_default_group_role_sync_with_tracking
  by_cases hemp : (group_roles_to_remove g grs roles).isEmpty
  · rw [if_pos hemp]
    have hnil := List.isEmpty_iff.mp hemp
    have hfil : roles.filter (fun r => !decide (r ∈ mapped_guild_roles g grs)) = roles := by
      rw [List.filter_eq_self]
      intro r hr
      simpa using aux_not_mapped_of_toRemove_nil hnil r hr
    rw [hfil]
    exact aux_default_add_loop_allOk g roles (default_role_names cfg)
  · rw [if_neg hemp]
    have hok : allOk.defaultRemoveOk = true := rfl
    rw [hok, if_pos rfl, aux_filter_toRemove]
    exact aux_default_add_loop_allOk g _ (default_role_names cfg)

/-- C5: with the verified-role policy enabled and a configured role id and
every mutation succeeding, a member lacking the verified role first loses
every held role listed in roles_to_remove and then gains the verified role;
a member already holding it, or a configured role id that no longer resolves
in the guild, leaves the step a total no-op (no exception, nothing recorded). -/
theorem thm_C5 (g : Guild) (cfg : ServerConfig) (roles : List Role) (vid : Nat)
    (he : cfg.verified_role_enabled = true)
    (hid : cfg.verified_role_id = some vid) :
    (∀ vr, get_role g vid = some vr →
      (vr ∈ roles → verified_role_step g cfg allOk roles = (roles, [], [])) ∧
      (vr ∉ roles → verified_role_step g cfg allOk roles =
        (roles.filter (fun r => !decide (r ∈ verified_roles_to_remove g cfg roles)) ++ [vr],
          [vr.name], (verified_roles_to_remove g cfg roles).map Role.name))) ∧
    (get_role g vid = none →
      verified_role_step g cfg allOk roles = (roles, [], [])) := by
  constructor
  · intro vr hvr
    exact ⟨fun hmem => aux_vrs_held g cfg allOk roles vid vr hid hvr hmem,
           fun hne => aux_vrs_apply g cfg roles vid vr he hid hvr hne⟩
  · intro hvr
    exact aux_vrs_role_gone g cfg allOk roles vid hid hvr

/-- Witness for thm_C5: the spec scenario — roles_to_remove contains R1, the
member holds R1 and lacks the verified role; after the step the member holds
the verified role and no longer holds R1. -/
theorem thm_C5_witness :
    verified_role_step ⟨[⟨1, "Verified"⟩, ⟨2, "R1"⟩]⟩
      ⟨"none", true, some 1, [2], none, none, false, true⟩ allOk [⟨2, "R1"⟩] =
      ([⟨1, "Verified"⟩], ["Verified"], ["R1"]) :=
  (((thm_C5 ⟨[⟨1, "Verified"⟩, ⟨2, "R1"⟩]⟩
      ⟨"none", true, some 1, [2], none, none, false, true⟩ [⟨2, "R1"⟩] 1
      rfl rfl).1 ⟨1, "Verified"⟩ (by decide)).2 (by decide)).trans (by decide)

/-- C6: verify_user and update_user enforce the top-level preconditions: a
missing ServerConfig row or setup_completed = false yields the
not-configured failure with the member untouched; a missing user row or an
empty linked-account list yields the no-linked-identity failure with the
member untouched; otherwise they reconcile with the first verified linked
account, falling back to the first account of the result order. -/
theorem thm_C6 (g : Guild) (grs : List GroupRole) (profile : Option String)
    (lookup : Option (List UserGroup)) (oracle : MutOracle) (ue : Bool)
    (accounts : List LinkedAccount) (m : Member) (cfg : ServerConfig) :
    (verify_user g grs profile lookup oracle none ue accounts m =
        (m, .server_not_configured) ∧
      update_user g grs profile lookup oracle none ue accounts m =
        (m, .server_not_configured)) ∧
    (cfg.setup_completed = false →
      verify_user g grs profile lookup oracle (some cfg) ue accounts m =
        (m, .server_not_configured) ∧
      update_user g grs profile lookup oracle (some cfg) ue accounts m =
        (m, .server_not_configured)) ∧
    (cfg.setup_completed = true → ue = false →
      verify_user g grs profile lookup oracle (some cfg) ue accounts m =
        (m, .no_linked_accounts) ∧
      update_user g grs profile lookup oracle (some cfg) ue accounts m =
        (m, .no_linked_accounts)) ∧
    (cfg.setup_completed = true →
      verify_user g grs profile lookup oracle (some cfg) true [] m =
        (m, .no_linked_accounts) ∧
      update_user g grs profile lookup oracle (some cfg) true [] m =
        (m, .no_linked_accounts)) ∧
    (∀ a rest, cfg.setup_completed = true → accounts = a :: rest →
      verify_user g grs profile lookup oracle (some cfg) true accounts m =
        ((apply_server_config_sync_with_tracking g cfg grs
            ((List.find? (fun x => x.verified) (a :: rest)).getD a)
            profile lookup oracle m).1,
          .ok (apply_server_config_sync_with_tracking g cfg grs
            ((List.find? (fun x => x.verified) (a :: rest)).getD a)
            profile lookup oracle m).2) ∧
      update_user g grs profile lookup oracle (some cfg) true accounts m =
        ((apply_server_config_sync_with_tracking g cfg grs
            ((List.find? (fun x => x.verified) (a :: rest)).getD a)
            profile lookup oracle m).1,
          .ok (apply_server_config_sync_with_tracking g cfg grs
            ((List.find? (fun x => x.verified) (a :: rest)).getD a)
            profile lookup oracle m).2)) := by
  refine ⟨⟨rfl, rfl⟩, ?_, ?_, ?_, ?_⟩
  · intro hs
    constructor <;> simp [verify_user, update_user, hs]
  · intro hs hue
    constructor <;> simp [verify_user, update_user, hs, hue]
  · intro hs
    constructor <;> simp [verify_user, update_user, hs]
  · intro a rest hs hacc
    subst hacc
    constructor <;> simp [verify_user, update_user, hs]

/-- Witness for thm_C6: a configured server with one linked account and an
all-off policy set reconciles to a success with the empty diff for both
verify_user and update_user. -/
theorem thm_C6_witness :
    verify_user ⟨[]⟩ [] none none allOk
      (some ⟨"none", false, none, [], none, none, false, true⟩) true
      [⟨"u", true⟩] ⟨none, "A", "a", []⟩ =
      (⟨none, "A", "a", []⟩, .ok RecResult.empty) ∧
    update_user ⟨[]⟩ [] none none allOk
      (some ⟨"none", false, none, [], none, none, false, true⟩) true
      [⟨"u", true⟩] ⟨none, "A", "a", []⟩ =
      (⟨none, "A", "a", []⟩, .ok RecResult.empty) := by
  have h := (thm_C6 ⟨[]⟩ [] none none allOk true [⟨"u", true⟩]
    ⟨none, "A", "a", []⟩ ⟨"none", false, none, [], none, none, false, true⟩).2.2.2.2
    ⟨"u", true⟩ [] rfl rfl
  exact ⟨h.1.trans (by decide), h.2.trans (by decide)⟩

/-- C10: when the preconditions pass (configured server, linked account),
verify_user and update_user return success with the tracked result even when
every attempted platform mutation fails: the member is unchanged and the
failures surface only as the empty diff. -/
theorem thm_C10 (g : Guild) (grs : List GroupRole) (profile : Option String)
    (lookup : Option (List UserGroup)) (cfg : ServerConfig) (a : LinkedAccount)
    (rest : List LinkedAccount) (m : Member)
    (hs : cfg.setup_completed = true) :
    verify_user g grs profile lookup allFail (some cfg) true (a :: rest) m =
      (m, .ok RecResult.empty) ∧
    update_user g grs profile lookup allFail (some cfg) true (a :: rest) m =
      (m, .ok RecResult.empty) := by
  constructor <;> simp [verify_user, update_user, hs, aux_apply_allFail]

/-- Witness for thm_C10: a fully configured policy set (nickname, verified
role, group) with every mutation failing still returns success and the empty
diff, leaving the member untouched. -/
theorem thm_C10_witness :
    verify_user ⟨[⟨1, "Verified"⟩, ⟨5, "Elite"⟩]⟩ [⟨"10", some 5⟩] none
      (some [⟨"100", "10", "Elite"⟩]) allFail
      (some ⟨"roblox_username", true, some 1, [], some "100", some "G", true, true⟩)
      true [⟨"u", true⟩] ⟨none, "A", "a", []⟩ =
      (⟨none, "A", "a", []⟩, .ok RecResult.empty) ∧
    update_user ⟨[⟨1, "Verified"⟩, ⟨5, "Elite"⟩]⟩ [⟨"10", some 5⟩] none
      (some [⟨"100", "10", "Elite"⟩]) allFail
      (some ⟨"roblox_username", true, some 1, [], some "100", some "G", true, true⟩)
      true [⟨"u", true⟩] ⟨none, "A", "a", []⟩ =
      (⟨none, "A", "a", []⟩, .ok RecResult.empty) :=
  thm_C10 ⟨[⟨1, "Verified"⟩, ⟨5, "Elite"⟩]⟩ [⟨"10", some 5⟩] none
    (some [⟨"100", "10", "Elite"⟩])
    ⟨"roblox_username", true, some 1, [], some "100", some "G", true, true⟩
    ⟨"u", true⟩ [] ⟨none, "A", "a", []⟩ rfl

/- ===================== claim C1 ===================== -/

/-- C1 counterexample: a member in the target group with a resolvable mapped
role gets that role on the first reconciliation; the second reconciliation,
with nothing changed, strips it and re-adds it and records both, so the
second diff is not empty — refuting the idempotence claim. -/
theorem thm_C1_counterexample :
    (apply_server_config_sync_with_tracking ⟨[⟨5, "Elite"⟩]⟩
        ⟨"none", false, none, [], some "100", some "G", true, true⟩
        [⟨"10", some 5⟩] ⟨"u", true⟩ none (some [⟨"100", "10", "Elite"⟩]) allOk
        (apply_server_config_sync_with_tracking ⟨[⟨5, "Elite"⟩]⟩
          ⟨"none", false, none, [], some "100", some "G", true, true⟩
          [⟨"10", some 5⟩] ⟨"u", true⟩ none (some [⟨"100", "10", "Elite"⟩]) allOk
          ⟨none, "A", "a", []⟩).1).2 =
      ⟨none, [], [], ["Elite"], ["Elite"]⟩ ∧
    (apply_server_config_sync_with_tracking ⟨[⟨5, "Elite"⟩]⟩
        ⟨"none", false, none, [], some "100", some "G", true, true⟩
        [⟨"10", some 5⟩] ⟨"u", true⟩ none (some [⟨"100", "10", "Elite"⟩]) allOk
        (apply_server_config_sync_with_tracking ⟨[⟨5, "Elite"⟩]⟩
          ⟨"none", false, none, [], some "100", some "G", true, true⟩
          [⟨"10", some 5⟩] ⟨"u", true⟩ none (some [⟨"100", "10", "Elite"⟩]) allOk
          ⟨none, "A", "a", []⟩).1).2 ≠ RecResult.empty := by
  constructor
  · decide
  · decide

/-- C1 amended: with unchanged external state and all mutations succeeding,
the second reconciliation records no nickname update and no verified-role
change provided the nickname format is not the self-appending
"discord_display_with_roblox" and the verified role is not itself a mapped
group role; and its group lists are empty exactly when the member leaves the
first call holding no mapped group role (otherwise the engine strips and
re-adds it, recording both, as the counterexample shows). -/
theorem thm_C1_amended (g : Guild) (cfg : ServerConfig) (grs : List GroupRole)
    (acct : LinkedAccount) (profile : Option String)
    (lookup : Option (List UserGroup)) (m0 : Member)
    (hfmt : cfg.nickname_format ≠ "discord_display_with_roblox")
    (hvm : Option.all (fun vr => !decide (vr ∈ mapped_guild_roles g grs))
      (cfg.verified_role_id.bind (get_role g)) = true)
    (hm1 : group_roles_to_remove g grs
      (apply_server_config_sync_with_tracking g cfg grs acct profile lookup
        allOk m0).1.roles = []) :
    (apply_server_config_sync_with_tracking g cfg grs acct profile lookup allOk
      (apply_server_config_sync_with_tracking g cfg grs acct profile lookup
        allOk m0).1).2 = RecResult.empty := by
  set m1 := (apply_server_config_sync_with_tracking g cfg grs acct profile lookup
    allOk m0).1 with hm1def
  -- the member left by the first call keeps the nickname written by its
  -- nickname phase; only the role list differs
  have hshape : m1 = { (nickname_step cfg acct profile allOk m0).1 with
      roles := m1.roles } := by
    rw [hm1def]
    rfl
  -- nickname phase of the second call is a recorded no-op
  have hnick : nickname_step cfg acct profile allOk m1 = (m1, none) := by
    have h := aux_nickname_second cfg acct profile m0 m1.roles hfmt
    rw [← hshape] at h
    exact h
  -- the role list left by the first call, as the output of its group phase
  have hm1roles : m1.roles =
      (if cfg.group_roles_enabled ∧ strTruthy cfg.group_id then
        assign_group_roles_sync_with_tracking g grs cfg lookup allOk
          (verified_role_step g cfg allOk
            (nickname_step cfg acct profile allOk m0).1.roles).1
      else ((verified_role_step g cfg allOk
          (nickname_step cfg acct profile allOk m0).1.roles).1,
        (⟨[], []⟩ : GroupEmbed))).1 := by
    rw [hm1def]
    rfl
  -- verified phase of the second call is a no-op
  have hver : verified_role_step g cfg allOk m1.roles = (m1.roles, [], []) := by
    cases he : cfg.verified_role_enabled with
    | false => exact aux_vrs_disabled g cfg allOk m1.roles he
    | true =>
      cases hid : cfg.verified_role_id with
      | none => exact aux_vrs_no_id g cfg allOk m1.roles hid
      | some vid =>
        cases hvr : get_role g vid with
        | none => exact aux_vrs_role_gone g cfg allOk m1.roles vid hid hvr
        | some vr =>
          have hnm : vr ∉ mapped_guild_roles g grs := by
            rw [hid] at hvm
            simp [hvr] at hvm
            exact hvm
          have hv1 : vr ∈ (verified_role_step g cfg allOk
              (nickname_step cfg acct profile allOk m0).1.roles).1 :=
            aux_vrs_mem g cfg _ vid vr he hid hvr
          have hmem : vr ∈ m1.roles := by
            rw [hm1roles]
            by_cases hgg : cfg.group_roles_enabled ∧ strTruthy cfg.group_id
            · rw [if_pos hgg]
              exact aux_group_step_preserves g grs cfg lookup allOk _ vr rfl hv1 hnm
            · rw [if_neg hgg]
              exact hv1
          exact aux_vrs_held g cfg allOk m1.roles vid vr hid hvr hmem
  -- group phase of the second call records nothing
  have hgroup : (if cfg.group_roles_enabled ∧ strTruthy cfg.group_id then
      assign_group_roles_sync_with_tracking g grs cfg lookup allOk m1.roles
    else (m1.roles, (⟨[], []⟩ : GroupEmbed))).2 = ⟨[], []⟩ := by
    by_cases hgg : cfg.group_roles_enabled ∧ strTruthy cfg.group_id
    · rw [if_pos hgg]
      have hts : strTruthy cfg.group_id = true := hgg.2
      have hphase := aux_group_phase g grs cfg lookup allOk m1.roles rfl
      have hfil : m1.roles.filter
          (fun r => !decide (r ∈ mapped_guild_roles g grs)) = m1.roles := by
        rw [List.filter_eq_self]
        intro r hr
        simpa using aux_not_mapped_of_toRemove_nil hm1 r hr
      rw [hphase, hm1, hfil]
      cases lookup with
      | none =>
        rw [aux_gls_lookup_none g grs cfg allOk m1.roles _ hts]
        rfl
      | some ugs =>
        cases hug : ugs.find? (fun x => x.group_id == cfg.group_id.getD "") with
        | none =>
          rw [aux_gls_no_target g grs cfg allOk m1.roles _ ugs hts hug]
          rfl
        | some ug =>
          cases hgr : grs.find? (fun x => x.roblox_role_id == ug.role_id) with
          | none =>
            rw [aux_gls_no_mapping g grs cfg allOk m1.roles _ ugs ug hts hug hgr]
            rfl
          | some gr =>
            cases hidg : gr.discord_role_id with
            | none =>
              rw [aux_gls_mapping_null g grs cfg allOk m1.roles _ ugs ug gr hts hug hgr hidg]
              rfl
            | some rid =>
              cases hrole : get_role g rid with
              | none =>
                rw [aux_gls_role_gone g grs cfg allOk m1.roles _ ugs ug gr rid
                  hts hug hgr hidg hrole]
                rfl
              | some r =>
                -- the first call took the same branch and added r, so r would
                -- be a mapped role still held at the start of the second call,
                -- contradicting hm1
                exfalso
                have hr_mapped : r ∈ mapped_guild_roles g grs :=
                  aux_mem_mapped (List.mem_of_find?_eq_some hgr) hidg hrole
                have hr_out : r ∉ m1.roles := by
                  intro hcon
                  have h2 := List.filter_eq_nil_iff.mp hm1 r hr_mapped
                  simp at h2
                  exact h2 hcon
                have hr_in : r ∈ m1.roles := by
                  rw [hm1roles, if_pos hgg]
                  rw [aux_group_phase g grs cfg (some ugs) allOk _ rfl]
                  rw [aux_gls_add g grs cfg allOk _ _ ugs ug gr rid r
                    hts hug hgr hidg hrole rfl]
                  exact aux_add_role_mem_self _ r
                exact hr_out hr_in
    · rw [if_neg hgg]
  -- assemble the second diff
  have hfinal : (apply_server_config_sync_with_tracking g cfg grs acct profile
      lookup allOk m1).2 =
      ⟨(nickname_step cfg acct profile allOk m1).2,
        (verified_role_step g cfg allOk
          (nickname_step cfg acct profile allOk m1).1.roles).2.1,
        (verified_role_step g cfg allOk
          (nickname_step cfg acct profile allOk m1).1.roles).2.2,
        (if cfg.group_roles_enabled ∧ strTruthy cfg.group_id then
          assign_group_roles_sync_with_tracking g grs cfg lookup allOk
            (verified_role_step g cfg allOk
              (nickname_step cfg acct profile allOk m1).1.roles).1
        else ((verified_role_step g cfg allOk
            (nickname_step cfg acct profile allOk m1).1.roles).1,
          (⟨[], []⟩ : GroupEmbed))).2.roles_added,
        (if cfg.group_roles_enabled ∧ strTruthy cfg.group_id then
          assign_group_roles_sync_with_tracking g grs cfg lookup allOk
            (verified_role_step g cfg allOk
              (nickname_step cfg acct profile allOk m1).1.roles).1
        else ((verified_role_step g cfg allOk
            (nickname_step cfg acct profile allOk m1).1.roles).1,
          (⟨[], []⟩ : GroupEmbed))).2.roles_removed⟩ := rfl
  rw [hfinal, hnick]
  simp only
  rw [hver]
  simp only
  rw [hgroup]
  rfl

/-- Witness for thm_C1_amended: a configured nickname and group policy with
no role mappings; the second reconciliation of an unchanged member produces
the empty diff. -/
theorem thm_C1_amended_witness :
    (apply_server_config_sync_with_tracking ⟨[]⟩
      ⟨"roblox_username", false, none, [], some "100", some "G", true, true⟩
      [] ⟨"u", true⟩ none (some []) allOk
      (apply_server_config_sync_with_tracking ⟨[]⟩
        ⟨"roblox_username", false, none, [], some "100", some "G", true, true⟩
        [] ⟨"u", true⟩ none (some []) allOk ⟨none, "A", "a", []⟩).1).2 =
      RecResult.empty :=
  thm_C1_amended ⟨[]⟩
    ⟨"roblox_username", false, none, [], some "100", some "G", true, true⟩
    [] ⟨"u", true⟩ none (some []) ⟨none, "A", "a", []⟩
    (by decide) (by decide) (by decide)
